import Mathlib

/-!
# Specter Sports Intel — verification of the core decision logic

A shallow embedding of the repository's core logic modules
(`ensemble-voter.ts`, `rules-engine.ts`, `velocity-tracker.ts`,
`elo-model.ts`, `fact-checker.ts`) together with theorems settling the
spec claims about them.

Modelling conventions:
* TypeScript `number` is modelled as `ℚ` wherever the code only performs
  field arithmetic, and as `ℝ` for the Elo module (which uses `10^x` and
  `log10`).
* TS string-literal union types (`Recommendation`, `Confidence`,
  `RuleSeverity`, …) are modelled as `String`, matching the structural
  string comparisons done by the code.
* `undefined`-able fields become `Option _`; JS truthiness tests
  `!x` / `x &&` on optional booleans become `.getD false`.
* `Math.round x` is `⌊x + 1/2⌋` (JS rounds half toward +∞).
* Display-only string fields (`summary`, `agreement`, violation
  `message` bodies) are not part of the model where no claim reads them.
-/

namespace Specter

/-- JS `Math.round (x * 1000) / 1000` on rationals (round half up). -/
def roundTo3 (x : ℚ) : ℚ := (⌊x * 1000 + 1/2⌋ : ℤ) / 1000

/-- JS `Math.round (x * 100) / 100` on rationals. -/
def roundTo2 (x : ℚ) : ℚ := (⌊x * 100 + 1/2⌋ : ℤ) / 100

/-- JS `Math.round (x * 10) / 10` on rationals. -/
def roundTo1 (x : ℚ) : ℚ := (⌊x * 10 + 1/2⌋ : ℤ) / 10

end Specter

namespace Ensemble

open Specter

/-- `ModelVote` from `types.ts` (probability is a `number`,
recommendation an arbitrary string). -/
structure ModelVote where
  model : String
  probability : ℚ
  recommendation : String
  confidence : String
  deriving DecidableEq, Repr

/-- `EnsembleResult` from `types.ts`; the display-only `agreement` and
`summary` strings are not modelled. -/
structure EnsembleResult where
  votes : List ModelVote
  consensus : Bool
  finalProbability : ℚ
  finalRecommendation : String
  deriving DecidableEq, Repr

/-- `EnsembleVoter.getConfidence`: edge = |p − 0.5|; > 0.15 high,
> 0.08 medium, else low. -/
def getConfidence (prob : ℚ) : String :=
  let edge := |prob - 0.5|
  if edge > 0.15 then "high"
  else if edge > 0.08 then "medium"
  else "low"

/-- The `votes` array assembled at the top of `EnsembleVoter.vote`:
an optional Bayesian vote, then the Elo vote, then the Rules vote
(whose confidence is forced to high when its recommendation is
BLOCKED). -/
def assembleVotes (bayesianProb : Option ℚ) (bayesianRec : Option String)
    (eloProb : ℚ) (eloRec : String) (rulesProb : ℚ) (rulesRec : String) :
    List ModelVote :=
  (match bayesianProb, bayesianRec with
   | some p, some r => [⟨"bayes", p, r, getConfidence p⟩]
   | _, _ => []) ++
  [⟨"elo", eloProb, eloRec, getConfidence eloProb⟩,
   ⟨"rules", rulesProb, rulesRec,
     if rulesRec = "BLOCKED" then "high" else getConfidence rulesProb⟩]

/-- The bet-vote tally of `EnsembleVoter.vote`: votes whose
recommendation is BET or HOME. -/
def betCount (votes : List ModelVote) : ℕ :=
  (votes.filter
    (fun v => v.recommendation == "BET" || v.recommendation == "HOME")).length

/-- The pass-vote tally: votes whose recommendation is PASS or NEUTRAL. -/
def passCount (votes : List ModelVote) : ℕ :=
  (votes.filter
    (fun v => v.recommendation == "PASS" || v.recommendation == "NEUTRAL")).length

/-- The fade-vote tally: votes whose recommendation is FADE or AWAY. -/
def fadeCount (votes : List ModelVote) : ℕ :=
  (votes.filter
    (fun v => v.recommendation == "FADE" || v.recommendation == "AWAY")).length

/-- `votes.reduce((sum, v) => sum + v.probability, 0) / votes.length`. -/
def meanProb (votes : List ModelVote) : ℚ :=
  (votes.foldl (fun sum v => sum + v.probability) 0) / (votes.length : ℚ)

/-- `EnsembleVoter.vote`. The JS `votes.find(v => v.recommendation ===
'BLOCKED')` truthiness test is modelled by `List.any`. -/
def vote (bayesianProb : Option ℚ) (bayesianRec : Option String)
    (eloProb : ℚ) (eloRec : String) (rulesProb : ℚ) (rulesRec : String) :
    EnsembleResult :=
  let votes := assembleVotes bayesianProb bayesianRec eloProb eloRec rulesProb rulesRec
  if votes.any (fun v => v.recommendation == "BLOCKED") then
    ⟨votes, true, rulesProb, "BLOCKED"⟩
  else
    let betVotes := betCount votes
    let passVotes := passCount votes
    let fadeVotes := fadeCount votes
    let avgProb := meanProb votes
    let consensus : Bool := betVotes ≥ 2 || passVotes ≥ 2 || fadeVotes ≥ 2
    let finalRecommendation :=
      if betVotes ≥ 2 ∧ avgProb > 0.60 then "STRONG_BET"
      else if betVotes ≥ 2 then "BET"
      else if fadeVotes ≥ 2 then "FADE"
      else if betVotes = 1 ∧ passVotes ≤ 1 then "LEAN"
      else "PASS"
    ⟨votes, consensus, roundTo3 avgProb, finalRecommendation⟩

/-- The decision ladder exactly as the spec words it (top-down:
bet≥2 and mean>0.60 → STRONG_BET; bet≥2 → BET; fade≥2 → FADE; exactly
one bet-vote and at most one pass-vote → LEAN; else PASS), stated
independently of `vote` for comparison with it. -/
def specDecisionLadder (betVotes passVotes fadeVotes : ℕ) (mean : ℚ) : String :=
  if betVotes ≥ 2 ∧ mean > 0.60 then "STRONG_BET"
  else if betVotes ≥ 2 then "BET"
  else if fadeVotes ≥ 2 then "FADE"
  else if betVotes = 1 ∧ passVotes ≤ 1 then "LEAN"
  else "PASS"

end Ensemble

/-- C1: any assembled vote with recommendation BLOCKED short-circuits
`EnsembleVoter.vote`: the result is BLOCKED with consensus = true and
final probability equal to the `rulesProb` argument, with no other
aggregation performed. -/
theorem c1_blocked_short_circuit (bp : Option ℚ) (br : Option String)
    (ep : ℚ) (er : String) (rp : ℚ) (rr : String)
    (h : (Ensemble.assembleVotes bp br ep er rp rr).any
      (fun v => v.recommendation == "BLOCKED") = true) :
    Ensemble.vote bp br ep er rp rr =
      ⟨Ensemble.assembleVotes bp br ep er rp rr, true, rp, "BLOCKED"⟩ := by
  unfold Ensemble.vote
  simp only [h, if_true]

/-- Witness for C1 at a concrete input with a BLOCKED rules vote. -/
theorem c1_blocked_short_circuit_witness :
    ((Ensemble.assembleVotes none none 0.6 "HOME" 0.5 "BLOCKED").any
      (fun v => v.recommendation == "BLOCKED") = true) ∧
    Ensemble.vote none none 0.6 "HOME" 0.5 "BLOCKED" =
      ⟨Ensemble.assembleVotes none none 0.6 "HOME" 0.5 "BLOCKED", true, 0.5, "BLOCKED"⟩ :=
  ⟨by decide, c1_blocked_short_circuit none none 0.6 "HOME" 0.5 "BLOCKED" (by decide)⟩

/-- C3 (corrected): when no vote is BLOCKED, `EnsembleVoter.vote`
tallies bet/pass/fade votes and picks the recommendation by the spec's
top-down ladder applied to those tallies and the unweighted mean of the
vote probabilities, but the `finalProbability` field is that mean
rounded to the nearest thousandth (half up) — not the raw mean.  The
two concrete examples from the claim hold. -/
theorem c3_ladder_and_rounded_mean (bp : Option ℚ) (br : Option String)
    (ep : ℚ) (er : String) (rp : ℚ) (rr : String)
    (hnb : (Ensemble.assembleVotes bp br ep er rp rr).any
      (fun v => v.recommendation == "BLOCKED") = false) :
    ((Ensemble.vote bp br ep er rp rr).finalProbability =
      Specter.roundTo3 (Ensemble.meanProb (Ensemble.assembleVotes bp br ep er rp rr)) ∧
     (Ensemble.vote bp br ep er rp rr).finalRecommendation =
      Ensemble.specDecisionLadder
        (Ensemble.betCount (Ensemble.assembleVotes bp br ep er rp rr))
        (Ensemble.passCount (Ensemble.assembleVotes bp br ep er rp rr))
        (Ensemble.fadeCount (Ensemble.assembleVotes bp br ep er rp rr))
        (Ensemble.meanProb (Ensemble.assembleVotes bp br ep er rp rr))) ∧
    (Ensemble.vote (some 0.65) (some "BET") 0.62 "HOME" 0.60 "BET").finalRecommendation
      = "STRONG_BET" ∧
    (Ensemble.vote (some 0.58) (some "BET") 0.55 "HOME" 0.52 "PASS").finalRecommendation
      = "BET" := by
  refine ⟨?_, ?_, ?_⟩
  · unfold Ensemble.vote
    simp only [hnb, Bool.false_eq_true, if_false]
    exact ⟨trivial, rfl⟩
  · norm_num +decide [Ensemble.vote, Ensemble.assembleVotes, Ensemble.getConfidence,
      Ensemble.betCount, Ensemble.passCount, Ensemble.fadeCount, Ensemble.meanProb,
      abs, max_def, List.any, List.filter, List.foldl]
  · norm_num +decide [Ensemble.vote, Ensemble.assembleVotes, Ensemble.getConfidence,
      Ensemble.betCount, Ensemble.passCount, Ensemble.fadeCount, Ensemble.meanProb,
      abs, max_def, List.any, List.filter, List.foldl]

/-- Witness for C3 at a concrete blocked-free input. -/
theorem c3_ladder_and_rounded_mean_witness :
    ((Ensemble.assembleVotes none none 0.62 "HOME" 0.59 "BET").any
      (fun v => v.recommendation == "BLOCKED") = false) ∧
    (Ensemble.vote none none 0.62 "HOME" 0.59 "BET").finalProbability =
      Specter.roundTo3 (Ensemble.meanProb (Ensemble.assembleVotes none none 0.62 "HOME" 0.59 "BET")) :=
  ⟨by decide,
   ((c3_ladder_and_rounded_mean none none 0.62 "HOME" 0.59 "BET" (by decide)).1).1⟩

/-- Counterexample to C3 as stated: at the claim's own first example the
`finalProbability` field is the rounded mean `0.623`, not the unweighted
mean `187/300 = 0.6233…`. -/
theorem c3_final_probability_not_mean :
    (Ensemble.vote (some 0.65) (some "BET") 0.62 "HOME" 0.60 "BET").finalProbability ≠
      (0.65 + 0.62 + 0.60) / 3 := by
  norm_num +decide [Ensemble.vote, Ensemble.assembleVotes, Ensemble.getConfidence,
    Ensemble.betCount, Ensemble.passCount, Ensemble.fadeCount, Ensemble.meanProb,
    Specter.roundTo3, abs, max_def, List.any, List.filter, List.foldl, Int.floor_eq_iff]

/-- C4: in every non-blocked run of `EnsembleVoter.vote`, the consensus
flag is true exactly when some tally category (bet, pass or fade)
reaches ≥ 2 votes, independently of the decision-ladder branch; and at a
concrete input consensus = true co-occurs with recommendation PASS. -/
theorem c4_consensus_any_category :
    (∀ (bp : Option ℚ) (br : Option String) (ep : ℚ) (er : String) (rp : ℚ) (rr : String),
      (Ensemble.assembleVotes bp br ep er rp rr).any
        (fun v => v.recommendation == "BLOCKED") = false →
      ((Ensemble.vote bp br ep er rp rr).consensus = true ↔
        (2 ≤ Ensemble.betCount (Ensemble.assembleVotes bp br ep er rp rr) ∨
         2 ≤ Ensemble.passCount (Ensemble.assembleVotes bp br ep er rp rr) ∨
         2 ≤ Ensemble.fadeCount (Ensemble.assembleVotes bp br ep er rp rr)))) ∧
    ((Ensemble.vote (some 0.50) (some "PASS") 0.48 "NEUTRAL" 0.50 "PASS").consensus = true ∧
     (Ensemble.vote (some 0.50) (some "PASS") 0.48 "NEUTRAL" 0.50 "PASS").finalRecommendation
       = "PASS") := by
  refine ⟨?_, ?_, ?_⟩
  · intro bp br ep er rp rr hnb
    unfold Ensemble.vote
    simp only [hnb, Bool.false_eq_true, if_false]
    simp [Bool.or_eq_true, decide_eq_true_eq, or_assoc]
  · norm_num +decide [Ensemble.vote, Ensemble.assembleVotes, Ensemble.getConfidence,
      Ensemble.betCount, Ensemble.passCount, Ensemble.fadeCount, Ensemble.meanProb,
      abs, max_def, List.any, List.filter, List.foldl]
  · norm_num +decide [Ensemble.vote, Ensemble.assembleVotes, Ensemble.getConfidence,
      Ensemble.betCount, Ensemble.passCount, Ensemble.fadeCount, Ensemble.meanProb,
      abs, max_def, List.any, List.filter, List.foldl]

/-- Witness for C4's universally quantified part at a concrete input. -/
theorem c4_consensus_any_category_witness :
    ((Ensemble.assembleVotes none none 0.5 "NEUTRAL" 0.5 "PASS").any
      (fun v => v.recommendation == "BLOCKED") = false) ∧
    ((Ensemble.vote none none 0.5 "NEUTRAL" 0.5 "PASS").consensus = true ↔
      (2 ≤ Ensemble.betCount (Ensemble.assembleVotes none none 0.5 "NEUTRAL" 0.5 "PASS") ∨
       2 ≤ Ensemble.passCount (Ensemble.assembleVotes none none 0.5 "NEUTRAL" 0.5 "PASS") ∨
       2 ≤ Ensemble.fadeCount (Ensemble.assembleVotes none none 0.5 "NEUTRAL" 0.5 "PASS"))) :=
  ⟨by decide,
   c4_consensus_any_category.1 none none 0.5 "NEUTRAL" 0.5 "PASS" (by decide)⟩

namespace Rules

open Specter

/-- `GameContext` from `types.ts`, restricted to the fields the rules
engine reads (`isBackToBack`, `homeRecord`, `awayRecord` and
`timeZoneShift` are never read by any modelled function and are
omitted).  String-literal unions (`scheduleSpot`,
`circadianDisadvantage`) are strings. -/
structure GameContext where
  homeTeam : String
  awayTeam : String
  homeRestDays : Option ℚ
  awayRestDays : Option ℚ
  publicBetPct : Option ℚ
  sharpAction : Option Bool
  fatigueScore : Option ℚ
  scheduleSpot : Option String
  isEarlyGame : Option Bool
  circadianDisadvantage : Option String
  deriving DecidableEq, Repr

/-- `RuleViolation` from `types.ts`; the display-only `message` string
is not modelled. -/
structure RuleViolation where
  rule : String
  team : String
  adjustment : ℚ
  severity : String
  deriving DecidableEq, Repr

/-- `RulesResult` from `types.ts`; the display-only `summary` string is
not modelled. -/
structure RulesResult where
  violations : List RuleViolation
  adjustedProbability : ℚ
  recommendation : String
  deriving DecidableEq, Repr

/-- The `restDisadvantage` rule check (`Config.REST_CRITICAL_DIFF = 2`). -/
def restDisadvantage (ctx : GameContext) : Option RuleViolation :=
  match ctx.homeRestDays, ctx.awayRestDays with
  | some h, some a =>
    if h = 0 ∧ a ≥ 2 then some ⟨"REST_DISADVANTAGE", "home", -0.05, "critical"⟩
    else if a = 0 ∧ h ≥ 2 then some ⟨"REST_DISADVANTAGE", "away", -0.05, "critical"⟩
    else if h = 0 ∧ a ≥ 1 then some ⟨"REST_DISADVANTAGE", "home", -0.03, "warning"⟩
    else none
  | _, _ => none

/-- The `publicFade` rule check (`Config.PUBLIC_FADE_THRESHOLD = 70`).
Note the severity string is `auto-pass` in the source (both in this
rule and in the `RuleSeverity` type), and the JS test `!ctx.sharpAction`
treats `undefined` and `false` alike. -/
def publicFade (ctx : GameContext) : Option RuleViolation :=
  match ctx.publicBetPct with
  | some pct =>
    if pct > 70 ∧ ctx.sharpAction.getD false = false then
      some ⟨"PUBLIC_FADE", "home", 0, "auto-pass"⟩
    else none
  | none => none

/-- The `travelPenalty` rule check. -/
def travelPenalty (ctx : GameContext) : Option RuleViolation :=
  if ctx.scheduleSpot = some "TRAVEL_B2B" then
    some ⟨"TRAVEL_B2B", "away", -0.04, "critical"⟩
  else none

/-- The `fatiguePenalty` rule check (`FATIGUE_SEVERE_THRESHOLD = 7`,
`FATIGUE_MODERATE_THRESHOLD = 4`). -/
def fatiguePenalty (ctx : GameContext) : Option RuleViolation :=
  match ctx.fatigueScore with
  | none => none
  | some score =>
    let absScore := |score|
    let team := if score > 0 then "away" else "home"
    if absScore ≥ 7 then some ⟨"FATIGUE_SEVERE", team, -0.03, "critical"⟩
    else if absScore ≥ 4 then some ⟨"FATIGUE_MODERATE", team, -0.02, "warning"⟩
    else none

/-- The `circadianPenalty` rule check. -/
def circadianPenalty (ctx : GameContext) : Option RuleViolation :=
  if ctx.circadianDisadvantage = some "AWAY" ∧ ctx.isEarlyGame.getD false = true then
    some ⟨"CIRCADIAN", "away", -0.02, "warning"⟩
  else none

/-- The `scheduleSpotPenalty` rule check. -/
def scheduleSpotPenalty (ctx : GameContext) : Option RuleViolation :=
  if ctx.scheduleSpot = some "3_IN_4" then
    some ⟨"SCHEDULE_3_IN_4", "away", -0.02, "warning"⟩
  else if ctx.scheduleSpot = some "4_IN_5" then
    some ⟨"SCHEDULE_4_IN_5", "away", -0.03, "critical"⟩
  else none

/-- `ALL_RULES`, in source order. -/
def allRules : List (GameContext → Option RuleViolation) :=
  [restDisadvantage, publicFade, travelPenalty, fatiguePenalty,
   circadianPenalty, scheduleSpotPenalty]

/-- `RulesEngine.probToRecommendation`. -/
def probToRecommendation (prob : ℚ) : String :=
  if prob ≥ 0.58 then "BET"
  else if prob ≥ 0.54 then "LEAN"
  else if prob ≤ 0.42 then "FADE"
  else "PASS"

/-- `RulesEngine.evaluate`.  The single pass of the source collects the
violations, sums their adjustments and raises the blocked flag when an
`auto-pass`-severity violation is seen; this is modelled by the
equivalent `filterMap` / `foldl` / `any` over the same rule list. -/
def evaluate (ctx : GameContext) (baseProbability : ℚ) : RulesResult :=
  let violations := allRules.filterMap (fun rule => rule ctx)
  let totalAdjustment := violations.foldl (fun sum v => sum + v.adjustment) 0
  let blocked := violations.any (fun v => v.severity == "auto-pass")
  let adjustedProb := max 0 (min 1 (baseProbability + totalAdjustment))
  let recommendation :=
    if blocked then "BLOCKED" else probToRecommendation adjustedProb
  ⟨violations, roundTo3 adjustedProb, recommendation⟩

/-- Every violation a rule in `ALL_RULES` can emit carries a nonpositive
adjustment and a severity among `warning`, `critical`, `auto-pass`. -/
theorem rule_output_bounds (r : GameContext → Option RuleViolation)
    (hr : r ∈ allRules) (ctx : GameContext) (v : RuleViolation)
    (hv : r ctx = some v) :
    v.adjustment ≤ 0 ∧
      (v.severity = "warning" ∨ v.severity = "critical" ∨ v.severity = "auto-pass") := by
  simp only [allRules, List.mem_cons, List.not_mem_nil, or_false] at hr
  rcases hr with rfl | rfl | rfl | rfl | rfl | rfl
  · rcases hh : ctx.homeRestDays with _ | h0 <;>
      rcases ha : ctx.awayRestDays with _ | a0 <;>
      simp only [restDisadvantage, hh, ha] at hv
    all_goals try split_ifs at hv
    all_goals first
      | exact Option.noConfusion hv
      | (cases Option.some.inj hv; exact ⟨by norm_num, by decide⟩)
  · rcases hp : ctx.publicBetPct with _ | p0 <;>
      simp only [publicFade, hp] at hv
    all_goals try split_ifs at hv
    all_goals first
      | exact Option.noConfusion hv
      | (cases Option.some.inj hv; exact ⟨by norm_num, by decide⟩)
  · simp only [travelPenalty] at hv
    split_ifs at hv
    all_goals first
      | exact Option.noConfusion hv
      | (cases Option.some.inj hv; exact ⟨by norm_num, by decide⟩)
  · rcases hf : ctx.fatigueScore with _ | s0 <;>
      simp only [fatiguePenalty, hf] at hv
    all_goals try split_ifs at hv
    all_goals first
      | exact Option.noConfusion hv
      | (cases Option.some.inj hv; exact ⟨by norm_num, by decide⟩)
  · simp only [circadianPenalty] at hv
    split_ifs at hv
    all_goals first
      | exact Option.noConfusion hv
      | (cases Option.some.inj hv; exact ⟨by norm_num, by decide⟩)
  · simp only [scheduleSpotPenalty] at hv
    split_ifs at hv
    all_goals first
      | exact Option.noConfusion hv
      | (cases Option.some.inj hv; exact ⟨by norm_num, by decide⟩)

end Rules

namespace Rules

/-- `reduce((sum, v) => sum + v.adjustment, 0)` as a sum of the mapped
adjustments. -/
theorem foldl_add_adjustment (l : List RuleViolation) (a : ℚ) :
    l.foldl (fun sum v => sum + v.adjustment) a =
      a + (l.map (fun v => v.adjustment)).sum := by
  induction l generalizing a with
  | nil => simp
  | cons x t ih => simp [ih, add_assoc]

/-- A list of nonpositive rationals sums to at most any of its members. -/
theorem sum_le_of_mem_of_nonpos (l : List ℚ) (x : ℚ) (hx : x ∈ l)
    (h : ∀ y ∈ l, y ≤ 0) : l.sum ≤ x := by
  induction l with
  | nil => cases hx
  | cons a t ih =>
    rcases List.mem_cons.1 hx with rfl | hxt
    · have ht : t.sum ≤ 0 := by
        have := List.sum_le_card_nsmul t 0 (fun y hy => h y (List.mem_cons_of_mem _ hy))
        simpa using this
      simpa using add_le_add_left ht x
    · have ha : a ≤ 0 := h a (List.mem_cons_self a t)
      have := ih hxt (fun y hy => h y (List.mem_cons_of_mem _ hy))
      calc a + t.sum ≤ 0 + x := add_le_add ha this
      _ = x := by ring

/-- `roundTo3` moves a rational up by at most `1/2000`. -/
theorem roundTo3_le (x : ℚ) : Specter.roundTo3 x ≤ x + 1/2000 := by
  unfold Specter.roundTo3
  rw [div_le_iff (by norm_num : (0:ℚ) < 1000)]
  calc ((⌊x * 1000 + 1/2⌋ : ℤ) : ℚ) ≤ x * 1000 + 1/2 := Int.floor_le _
  _ = (x + 1/2000) * 1000 := by ring

end Rules

/-- C2: a context with `publicBetPct > 70` and `sharpAction` not `true`
(false or absent) makes `RulesEngine.evaluate` return recommendation
BLOCKED for every base probability in `[0,1]`, irrespective of the
clamped adjusted probability. -/
theorem c2_public_fade_blocks (ctx : Rules.GameContext) (p pct : ℚ)
    (hp : ctx.publicBetPct = some pct) (h70 : 70 < pct)
    (hs : ctx.sharpAction ≠ some true) (h0 : 0 ≤ p) (h1 : p ≤ 1) :
    (Rules.evaluate ctx p).recommendation = "BLOCKED" := by
  have hgd : ctx.sharpAction.getD false = false := by
    rcases h : ctx.sharpAction with _ | b
    · rfl
    · cases b
      · rfl
      · exact absurd h hs
  have hpf : Rules.publicFade ctx = some ⟨"PUBLIC_FADE", "home", 0, "auto-pass"⟩ := by
    simp only [Rules.publicFade, hp]
    rw [if_pos ⟨h70, hgd⟩]
  have hmem : (⟨"PUBLIC_FADE", "home", 0, "auto-pass"⟩ : Rules.RuleViolation) ∈
      Rules.allRules.filterMap (fun rule => rule ctx) :=
    List.mem_filterMap.2 ⟨Rules.publicFade, by simp [Rules.allRules], hpf⟩
  have hblocked : (Rules.allRules.filterMap (fun rule => rule ctx)).any
      (fun v => v.severity == "auto-pass") = true :=
    List.any_eq_true.2 ⟨_, hmem, by decide⟩
  show Rules.RulesResult.recommendation _ = "BLOCKED"
  simp only [Rules.evaluate, hblocked, if_true]

/-- Witness for C2: `publicBetPct = 75`, `sharpAction = false`,
base probability `0.55`. -/
theorem c2_public_fade_blocks_witness :
    ((⟨"h", "a", none, none, some 75, some false, none, none, none,
        none⟩ : Rules.GameContext).publicBetPct = some 75 ∧
      (70:ℚ) < 75 ∧
      (⟨"h", "a", none, none, some 75, some false, none, none, none,
        none⟩ : Rules.GameContext).sharpAction ≠ some true ∧
      (0:ℚ) ≤ 0.55 ∧ (0.55:ℚ) ≤ 1) ∧
    (Rules.evaluate
      ⟨"h", "a", none, none, some 75, some false, none, none, none, none⟩
      0.55).recommendation = "BLOCKED" :=
  ⟨⟨rfl, by norm_num, by decide, by norm_num, by norm_num⟩,
   c2_public_fade_blocks _ 0.55 75 rfl (by norm_num) (by decide)
     (by norm_num) (by norm_num)⟩

/-- C5 (corrected): with `homeRestDays = 0` and `awayRestDays = 3` the
rest-disadvantage rule fires with adjustment −0.05 and every other rule
only ever subtracts, so for every base probability in `(0, 1]` the
returned (rounded) adjusted probability is strictly lower than the base
probability.  At base probability 0 the clamp to `[0,1]` makes them
equal, so the open lower end is necessary. -/
theorem c5_rest_disadvantage_lowers (ctx : Rules.GameContext) (p : ℚ)
    (hh : ctx.homeRestDays = some 0) (ha : ctx.awayRestDays = some 3)
    (h0 : 0 < p) (h1 : p ≤ 1) :
    (Rules.evaluate ctx p).adjustedProbability < p := by
  have hrest : Rules.restDisadvantage ctx =
      some ⟨"REST_DISADVANTAGE", "home", -0.05, "critical"⟩ := by
    simp only [Rules.restDisadvantage, hh, ha]
    norm_num
  have hmem : (⟨"REST_DISADVANTAGE", "home", -0.05, "critical"⟩ : Rules.RuleViolation) ∈
      Rules.allRules.filterMap (fun rule => rule ctx) :=
    List.mem_filterMap.2 ⟨Rules.restDisadvantage, by simp [Rules.allRules], hrest⟩
  have hmapmem : (-0.05 : ℚ) ∈
      (Rules.allRules.filterMap (fun rule => rule ctx)).map (fun v => v.adjustment) := by
    have := List.mem_map_of_mem (fun v : Rules.RuleViolation => v.adjustment) hmem
    simpa using this
  have hnonpos : ∀ y ∈ (Rules.allRules.filterMap (fun rule => rule ctx)).map
      (fun v => v.adjustment), y ≤ 0 := by
    intro y hy
    obtain ⟨v, hv, rfl⟩ := List.mem_map.1 hy
    obtain ⟨r, hr, hrv⟩ := List.mem_filterMap.1 hv
    exact (Rules.rule_output_bounds r hr ctx v hrv).1
  have htot : ((Rules.allRules.filterMap (fun rule => rule ctx)).map
      (fun v => v.adjustment)).sum ≤ -0.05 :=
    Rules.sum_le_of_mem_of_nonpos _ _ hmapmem hnonpos
  have hfold : (Rules.allRules.filterMap (fun rule => rule ctx)).foldl
      (fun sum v => sum + v.adjustment) 0 ≤ -0.05 := by
    rw [Rules.foldl_add_adjustment]
    simpa using htot
  show Rules.RulesResult.adjustedProbability _ < p
  simp only [Rules.evaluate]
  set t := (Rules.allRules.filterMap (fun rule => rule ctx)).foldl
    (fun sum v => sum + v.adjustment) 0 with ht
  rcases le_or_lt (p + t) 0 with hc | hc
  · have hmin : min 1 (p + t) = p + t := min_eq_right (by linarith)
    have hmax : max 0 (min 1 (p + t)) = 0 := by
      rw [hmin]; exact max_eq_left hc
    rw [hmax]
    have : Specter.roundTo3 0 = 0 := by
      unfold Specter.roundTo3
      norm_num
    rw [this]; exact h0
  · have hmin : min 1 (p + t) = p + t := min_eq_right (by linarith)
    have hmax : max 0 (min 1 (p + t)) = p + t := by
      rw [hmin]; exact max_eq_right (le_of_lt hc)
    rw [hmax]
    have := Rules.roundTo3_le (p + t)
    have hpt : p + t ≤ p - 0.05 := by linarith
    calc Specter.roundTo3 (p + t) ≤ (p + t) + 1/2000 := this
    _ ≤ (p - 0.05) + 1/2000 := by linarith
    _ < p := by linarith

/-- Witness for C5 (amended) at base probability 0.55. -/
theorem c5_rest_disadvantage_lowers_witness :
    ((⟨"h", "a", some 0, some 3, none, none, none, none, none,
        none⟩ : Rules.GameContext).homeRestDays = some 0 ∧
      (⟨"h", "a", some 0, some 3, none, none, none, none, none,
        none⟩ : Rules.GameContext).awayRestDays = some 3 ∧
      (0:ℚ) < 0.55 ∧ (0.55:ℚ) ≤ 1) ∧
    (Rules.evaluate
      ⟨"h", "a", some 0, some 3, none, none, none, none, none, none⟩
      0.55).adjustedProbability < 0.55 :=
  ⟨⟨rfl, rfl, by norm_num, by norm_num⟩,
   c5_rest_disadvantage_lowers _ 0.55 rfl rfl (by norm_num) (by norm_num)⟩

/-- Counterexample to C5 as stated: at base probability 0 (which is in
`[0,1]`) the clamp keeps the adjusted probability at 0, which is not
strictly lower than the base probability. -/
theorem c5_base_zero_not_lowered :
    ¬ ((Rules.evaluate
        ⟨"h", "a", some 0, some 3, none, none, none, none, none, none⟩
        0).adjustedProbability < 0) := by
  have : (Rules.evaluate
      ⟨"h", "a", some 0, some 3, none, none, none, none, none, none⟩
      0).adjustedProbability = 0 := by
    norm_num +decide [Rules.evaluate, Rules.allRules, Rules.restDisadvantage,
      Rules.publicFade, Rules.travelPenalty, Rules.fatiguePenalty,
      Rules.circadianPenalty, Rules.scheduleSpotPenalty, Specter.roundTo3,
      List.filterMap, List.foldl, List.any, max_def, min_def, Int.floor_eq_iff]
  rw [this]
  norm_num

/-- C6 (corrected): every violation `RulesEngine.evaluate` produces has
severity in the set the code actually uses — `warning`, `critical`,
`auto-pass` (the `RuleSeverity` union of `types.ts`); the value
`auto-block` does not occur anywhere in the code. -/
theorem c6_severity_in_code_set (ctx : Rules.GameContext) (p : ℚ)
    (v : Rules.RuleViolation) (hv : v ∈ (Rules.evaluate ctx p).violations) :
    v.severity = "warning" ∨ v.severity = "critical" ∨ v.severity = "auto-pass" := by
  have hviol : (Rules.evaluate ctx p).violations =
      Rules.allRules.filterMap (fun rule => rule ctx) := rfl
  rw [hviol] at hv
  obtain ⟨r, hr, hrv⟩ := List.mem_filterMap.1 hv
  exact (Rules.rule_output_bounds r hr ctx v hrv).2

/-- Witness for C6 (amended): the rest-disadvantage violation at a
concrete context is in the violation list and its severity is in the
code's severity set. -/
theorem c6_severity_in_code_set_witness :
    ((⟨"REST_DISADVANTAGE", "home", -0.05, "critical"⟩ : Rules.RuleViolation) ∈
      (Rules.evaluate
        ⟨"h", "a", some 0, some 3, none, none, none, none, none, none⟩
        0.55).violations) ∧
    ((⟨"REST_DISADVANTAGE", "home", -0.05, "critical"⟩ : Rules.RuleViolation).severity
        = "warning" ∨
      (⟨"REST_DISADVANTAGE", "home", -0.05, "critical"⟩ : Rules.RuleViolation).severity
        = "critical" ∨
      (⟨"REST_DISADVANTAGE", "home", -0.05, "critical"⟩ : Rules.RuleViolation).severity
        = "auto-pass") := by
  have hmem : (⟨"REST_DISADVANTAGE", "home", -0.05, "critical"⟩ : Rules.RuleViolation) ∈
      (Rules.evaluate
        ⟨"h", "a", some 0, some 3, none, none, none, none, none, none⟩
        0.55).violations := by
    norm_num +decide [Rules.evaluate, Rules.allRules, Rules.restDisadvantage,
      Rules.publicFade, Rules.travelPenalty, Rules.fatiguePenalty,
      Rules.circadianPenalty, Rules.scheduleSpotPenalty, List.filterMap]
  exact ⟨hmem, c6_severity_in_code_set _ 0.55 _ hmem⟩

/-- Counterexample to C6 as stated: the public-fade violation carries
severity `auto-pass`, which is not in the claimed set
`{warning, critical, auto-block}`. -/
theorem c6_auto_pass_outside_claimed_set :
    ∃ v ∈ (Rules.evaluate
        ⟨"h", "a", none, none, some 75, some false, none, none, none, none⟩
        0.55).violations,
      ¬(v.severity = "warning" ∨ v.severity = "critical" ∨ v.severity = "auto-block") := by
  refine ⟨⟨"PUBLIC_FADE", "home", 0, "auto-pass"⟩, ?_, by decide⟩
  norm_num +decide [Rules.evaluate, Rules.allRules, Rules.restDisadvantage,
    Rules.publicFade, Rules.travelPenalty, Rules.fatiguePenalty,
    Rules.circadianPenalty, Rules.scheduleSpotPenalty, List.filterMap]

namespace Velocity

open Specter

/-- `LineSnapshot` from `types.ts`; the ISO timestamp string is
modelled by its epoch value in milliseconds (`new Date(ts).getTime()`),
which is all the tracker ever computes from it. -/
structure LineSnapshot where
  time : ℚ
  spread : ℚ
  total : ℚ
  homeML : ℚ
  awayML : ℚ
  deriving DecidableEq, Repr

/-- `VelocityAnalysis` from `types.ts`; the display-only `summary`
string is not modelled.  `steamDirection` is `null` or one of the
direction strings. -/
structure VelocityAnalysis where
  spreadVelocity : ℚ
  totalVelocity : ℚ
  spreadMoved : ℚ
  totalMoved : ℚ
  hoursTracked : ℚ
  isSteamMove : Bool
  steamDirection : Option String
  lateMovement : Bool
  deriving DecidableEq, Repr

/-- `VelocityTracker.noDataResult`. -/
def noDataResult : VelocityAnalysis := ⟨0, 0, 0, 0, 0, false, none, false⟩

/-- One step of the stable ascending sort: insert `x` before the first
element with a strictly later time. -/
def insertByTime (x : LineSnapshot) : List LineSnapshot → List LineSnapshot
  | [] => [x]
  | y :: ys => if y.time < x.time then y :: insertByTime x ys else x :: y :: ys

/-- `[...snapshots].sort((a, b) => timeA − timeB)`: the stable sort by
ascending timestamp (JS `Array.prototype.sort` is stable), computed as
an insertion sort. -/
def sortByTime : List LineSnapshot → List LineSnapshot
  | [] => []
  | x :: xs => insertByTime x (sortByTime xs)

/-- `VelocityTracker.detectSteam` (`STEAM_THRESHOLD = 0.5`); returns
the `isSteamMove` flag and the direction. -/
def detectSteam (spreadVelocity totalVelocity : ℚ) : Bool × Option String :=
  if |spreadVelocity| ≥ 0.5 then
    (true, some (if spreadVelocity > 0 then "HOME" else "AWAY"))
  else if |totalVelocity| ≥ 0.5 then
    (true, some (if totalVelocity > 0 then "OVER" else "UNDER"))
  else (false, none)

/-- `VelocityTracker.detectLateMovement` (`LATE_WINDOW_HOURS = 2`). -/
def detectLateMovement (sortedSnapshots : List LineSnapshot) : Bool :=
  if sortedSnapshots.length < 2 then false
  else
    match sortedSnapshots.getLast? with
    | none => false
    | some last =>
      let cutoffTime := last.time - 2 * 60 * 60 * 1000
      let recentSnapshots := sortedSnapshots.filter (fun s => s.time ≥ cutoffTime)
      if recentSnapshots.length < 2 then false
      else
        match recentSnapshots.head? with
        | none => false
        | some recentFirst =>
          |last.spread - recentFirst.spread| ≥ 0.5 ||
            |last.total - recentFirst.total| ≥ 0.5

/-- `VelocityTracker.analyze`.  The source indexes `sorted[0]` and
`sorted[sorted.length − 1]`, which exist because the guard has already
ensured at least two snapshots; the unreachable empty case maps to the
no-data result. -/
def analyze (snapshots : List LineSnapshot) : VelocityAnalysis :=
  if snapshots.length < 2 then noDataResult
  else
    match (sortByTime snapshots).head?, (sortByTime snapshots).getLast? with
    | some first, some last =>
      let hoursTracked := (last.time - first.time) / (1000 * 60 * 60)
      if hoursTracked < 0.1 then noDataResult
      else
        let spreadMoved := last.spread - first.spread
        let totalMoved := last.total - first.total
        let spreadVelocity := spreadMoved / hoursTracked
        let totalVelocity := totalMoved / hoursTracked
        let steam := detectSteam spreadVelocity totalVelocity
        let lateMovement := detectLateMovement (sortByTime snapshots)
        ⟨roundTo2 spreadVelocity, roundTo2 totalVelocity,
          roundTo1 spreadMoved, roundTo1 totalMoved, roundTo1 hoursTracked,
          steam.1, steam.2, lateMovement⟩
    | _, _ => noDataResult

/-- The earliest-to-latest time span, in hours, of the time-sorted
snapshot list (the `hoursTracked` quantity of `analyze`); 0 when the
list is empty. -/
def hoursSpan (snapshots : List LineSnapshot) : ℚ :=
  match (sortByTime snapshots).head?, (sortByTime snapshots).getLast? with
  | some first, some last => (last.time - first.time) / (1000 * 60 * 60)
  | _, _ => 0

theorem length_insertByTime (x : LineSnapshot) (l : List LineSnapshot) :
    (insertByTime x l).length = l.length + 1 := by
  induction l with
  | nil => rfl
  | cons y ys ih =>
    unfold insertByTime
    split
    · simp [ih]
    · simp

theorem length_sortByTime (l : List LineSnapshot) :
    (sortByTime l).length = l.length := by
  induction l with
  | nil => rfl
  | cons x xs ih => simp [sortByTime, length_insertByTime, ih]

end Velocity

/-- C7: `VelocityTracker.analyze` on fewer than 2 snapshots, or on a
list whose time-sorted earliest-to-latest span is under 0.1 hours,
returns the canonical no-data result: all numeric fields zero,
`isSteamMove = false`, `steamDirection = null`, `lateMovement = false`. -/
theorem c7_no_data_result (snapshots : List Velocity.LineSnapshot)
    (h : snapshots.length < 2 ∨ Velocity.hoursSpan snapshots < 0.1) :
    Velocity.analyze snapshots = ⟨0, 0, 0, 0, 0, false, none, false⟩ := by
  by_cases hlen : snapshots.length < 2
  · unfold Velocity.analyze
    rw [if_pos hlen]
    rfl
  · have hspan : Velocity.hoursSpan snapshots < 0.1 := h.resolve_left hlen
    have hne : Velocity.sortByTime snapshots ≠ [] := by
      intro hnil
      have := Velocity.length_sortByTime snapshots
      rw [hnil] at this
      simp at this
      omega
    obtain ⟨first, hfirst⟩ : ∃ a, (Velocity.sortByTime snapshots).head? = some a := by
      rcases hs : Velocity.sortByTime snapshots with _ | ⟨a, t⟩
      · exact absurd hs hne
      · exact ⟨a, rfl⟩
    obtain ⟨last, hlast⟩ : ∃ a, (Velocity.sortByTime snapshots).getLast? = some a :=
      ⟨(Velocity.sortByTime snapshots).getLast hne, List.getLast?_eq_getLast _ hne⟩
    have hspan2 : (last.time - first.time) / (1000 * 60 * 60) < 0.1 := by
      unfold Velocity.hoursSpan at hspan
      rw [hfirst, hlast] at hspan
      exact hspan
    unfold Velocity.analyze
    rw [if_neg hlen, hfirst, hlast]
    simp only [hspan2, if_true, Velocity.noDataResult]

/-- Witness for C7 at the empty snapshot list. -/
theorem c7_no_data_result_witness :
    (([] : List Velocity.LineSnapshot).length < 2 ∨ Velocity.hoursSpan [] < 0.1) ∧
    Velocity.analyze [] = ⟨0, 0, 0, 0, 0, false, none, false⟩ :=
  ⟨Or.inl (by norm_num), c7_no_data_result [] (Or.inl (by norm_num))⟩

namespace FactCheck

/-- JS `String.prototype.toLowerCase()` on the ASCII range, as a
character-by-character map (locale-specific mappings beyond
`Char.toLower` are not modelled). -/
def lowerStr (s : String) : String := ⟨s.data.map Char.toLower⟩

/-- Does `needle` start `hay`?  (Character-list matcher used to model
the JS regex literals.) -/
def charsStartWith : List Char → List Char → Bool
  | [], _ => true
  | _ :: _, [] => false
  | c :: cs, d :: ds => c == d && charsStartWith cs ds

/-- Does `needle` occur anywhere in `hay`?  Models JS
`hay.includes(needle)` and a bare literal in a regex. -/
def charsContain (needle : List Char) : List Char → Bool
  | [] => charsStartWith needle []
  | c :: t => charsStartWith needle (c :: t) || charsContain needle t

/-- Regex `.*needle` anchored at the current position: skip any number
of non-newline characters (JS `.` does not match a newline), then match
`needle`. -/
def noNlThen (needle : List Char) : List Char → Bool
  | [] => charsStartWith needle []
  | c :: t => charsStartWith needle (c :: t) || (!(c == '\n') && noNlThen needle t)

/-- Unanchored regex `p1.*p2` over `hay`: some position matches `p1`
followed (across non-newline characters) by `p2`. -/
def seqMatch (p1 p2 : List Char) : List Char → Bool
  | [] => charsStartWith p1 [] && noNlThen p2 []
  | c :: t =>
    (charsStartWith p1 (c :: t) && noNlThen p2 ((c :: t).drop p1.length)) ||
      seqMatch p1 p2 t

/-- Value of a digit run, most significant first. -/
def digitsVal (ds : List Char) : ℕ := ds.foldl (fun n c => 10 * n + (c.toNat - 48)) 0

/-- Value of a fractional digit run (the part after the decimal point). -/
def fracVal (ds : List Char) : ℚ :=
  ds.foldr (fun c q => (((c.toNat - 48 : ℕ) : ℚ) + q) / 10) 0

/-- Anchored match of the numeric part `[+-]?\d+\.?\d*` (sign only when
`allowSign`), returning `parseFloat` of the matched text and the
remaining characters. -/
def numAt (allowSign : Bool) (s : List Char) : Option (ℚ × List Char) :=
  let signed : ℚ × List Char :=
    if allowSign then
      match s with
      | '+' :: t => (1, t)
      | '-' :: t => (-1, t)
      | _ => (1, s)
    else (1, s)
  let ds := signed.2.takeWhile Char.isDigit
  let s2 := signed.2.drop ds.length
  if ds.isEmpty then none
  else
    match s2 with
    | '.' :: t =>
      let fds := t.takeWhile Char.isDigit
      some (signed.1 * ((digitsVal ds : ℚ) + fracVal fds), t.drop fds.length)
    | _ => some (signed.1 * (digitsVal ds : ℚ), s2)

/-- JS `\s` on the ASCII range (space, tab, LF, VT, FF, CR; the
non-ASCII space characters are not modelled). -/
def isSpaceChar (c : Char) : Bool := c == ' ' || (9 ≤ c.toNat && c.toNat ≤ 13)

def skipSpaces (s : List Char) : List Char := s.dropWhile isSpaceChar

/-- Case-insensitive literal at the current position (the regexes carry
the `i` flag). -/
def lowerPfx (lit : String) (s : List Char) : Bool :=
  charsStartWith lit.data (s.map Char.toLower)

/-- Anchored match of `([+-]?\d+\.?\d*)\s*(?:point|pt)` returning the
captured number. -/
def spreadClaimAt (s : List Char) : Option ℚ :=
  match numAt true s with
  | none => none
  | some (v, rest) =>
    let rest2 := skipSpaces rest
    if lowerPfx "point" rest2 || lowerPfx "pt" rest2 then some v else none

/-- Leftmost match of the spread-claim pattern. -/
def scanSpread : List Char → Option ℚ
  | [] => none
  | c :: t =>
    match spreadClaimAt (c :: t) with
    | some v => some v
    | none => scanSpread t

/-- Anchored match of `(\d+\.?\d*)\s*(?:ppg|points per game)`. -/
def ppgClaimAt (s : List Char) : Option ℚ :=
  match numAt false s with
  | none => none
  | some (v, rest) =>
    let rest2 := skipSpaces rest
    if lowerPfx "ppg" rest2 || lowerPfx "points per game" rest2 then some v else none

/-- Leftmost match of the PPG pattern. -/
def scanPpg : List Char → Option ℚ
  | [] => none
  | c :: t =>
    match ppgClaimAt (c :: t) with
    | some v => some v
    | none => scanPpg t

/-- Anchored match of `(\d+\.?\d*)\s*%\s*(?:win|winning)`. -/
def winPctClaimAt (s : List Char) : Option ℚ :=
  match numAt false s with
  | none => none
  | some (v, rest) =>
    let rest2 := skipSpaces rest
    match rest2 with
    | '%' :: r3 =>
      let r4 := skipSpaces r3
      if lowerPfx "win" r4 || lowerPfx "winning" r4 then some v else none
    | _ => none

/-- Leftmost match of the win-percentage pattern. -/
def scanWinPct : List Char → Option ℚ
  | [] => none
  | c :: t =>
    match winPctClaimAt (c :: t) with
    | some v => some v
    | none => scanWinPct t

/-- `SignalOutput` from `types.ts`. -/
structure SignalOutput where
  pick : String
  reasoning : String
  tweetText : String
  confidence : ℚ
  keyFactors : List String
  deriving DecidableEq, Repr

/-- `GameData` restricted to the fields the fact checker reads
(`homeTeam`, `awayTeam`, the ISO `time` string, `spread`); the other
feed fields are never read by any modelled function and are omitted. -/
structure GameData where
  homeTeam : String
  awayTeam : String
  time : String
  spread : ℚ
  deriving DecidableEq, Repr

/-- `ValidationResult` from `types.ts` (the optional `correctedText`
field is never set by `validate` and is omitted). -/
structure ValidationResult where
  passed : Bool
  issues : List String
  deriving DecidableEq, Repr

/-- `FactChecker.verifySpread` (`SPREAD_TOLERANCE = 0.5`): the first
spread claim of the reasoning text, else of the tweet text; mismatch
when the absolute claimed value differs from the absolute actual spread
by more than 0.5. -/
def verifySpread (signal : SignalOutput) (game : GameData) : Option String :=
  match (match scanSpread signal.reasoning.data with
         | some v => some v
         | none => scanSpread signal.tweetText.data) with
  | none => none
  | some claimedSpread =>
    let actualSpread := |game.spread|
    if abs (|claimedSpread| - actualSpread) > 0.5 then
      some ("Spread mismatch: claimed " ++ toString claimedSpread ++
        ", actual is " ++ toString game.spread)
    else none

/-- `FactChecker.verifyTeams`.  The source builds
`new RegExp(awayTeam.toLowerCase() + ".*home")` and
`new RegExp(homeTeam.toLowerCase() + ".*road|away")`; in the second
pattern the regex alternation applies to the whole pattern, so it
matches `homeTeam.*road` OR the bare literal `away`. -/
def verifyTeams (signal : SignalOutput) (game : GameData) : Option String :=
  let text := lowerStr (signal.reasoning ++ " " ++ signal.tweetText)
  if seqMatch (lowerStr game.awayTeam).data "home".data text.data then
    some ("Team location error: " ++ game.awayTeam ++ " is the away team, not home")
  else if seqMatch (lowerStr game.homeTeam).data "road".data text.data ||
      charsContain "away".data text.data then
    some ("Team location error: " ++ game.homeTeam ++ " is the home team, not away")
  else none

/-- The weekday name/abbreviation table of `FactChecker.verifyDate`,
in source order. -/
def dayPairs : List (String × String) :=
  [("monday", "mon"), ("tuesday", "tue"), ("wednesday", "wed"),
   ("thursday", "thu"), ("friday", "fri"), ("saturday", "sat"),
   ("sunday", "sun")]

/-- The day loop of `verifyDate`: the first mentioned weekday that is
not the actual weekday yields a mismatch. -/
def checkDays (text dayOfWeek : String) : List (String × String) → Option String
  | [] => none
  | (day, abbr) :: rest =>
    if (charsContain day.data text.data || charsContain abbr.data text.data) = true ∧
        dayOfWeek ≠ day then
      some ("Date mismatch: claims \"" ++ day ++ "\" but game is on " ++ dayOfWeek)
    else checkDays text dayOfWeek rest

/-- `FactChecker.verifyDate`.  The source computes the weekday as
`new Date(game.time).toLocaleDateString('en-US', {weekday:'long'})`,
which depends on the host timezone and locale data; that weekday string
is therefore taken as the `dayOfWeek` parameter here. -/
def verifyDate (signal : SignalOutput) (dayOfWeek : String) : Option String :=
  checkDays (lowerStr signal.tweetText) (lowerStr dayOfWeek) dayPairs

/-- The win-percentage half of `verifyStats`. -/
def winPctIssue (reasoning : List Char) : Option String :=
  match scanWinPct reasoning with
  | some pct =>
    if pct > 100 then
      some ("Invalid percentage: " ++ toString pct ++ "% exceeds 100")
    else none
  | none => none

/-- `FactChecker.verifyStats`: a PPG claim over 45 is implausible;
otherwise a win-percentage claim over 100 is invalid. -/
def verifyStats (signal : SignalOutput) : Option String :=
  match scanPpg signal.reasoning.data with
  | some ppg =>
    if ppg > 45 then
      some ("Implausible stat: " ++ toString ppg ++ " PPG is unrealistic")
    else winPctIssue signal.reasoning.data
  | none => winPctIssue signal.reasoning.data

/-- `FactChecker.validate`: run the four independent checks, collect
every issue, pass iff none. -/
def validate (signal : SignalOutput) (game : GameData) (dayOfWeek : String) :
    ValidationResult :=
  let issues := [verifySpread signal game, verifyTeams signal game,
    verifyDate signal dayOfWeek, verifyStats signal].filterMap id
  ⟨issues.isEmpty, issues⟩

end FactCheck

/-- C8 (the code has a regex-precedence slip): first, the claim's own
example behaves as claimed — describing the away team as at home fails
validation with an issue naming the away team.  Second, the failing
input: a text containing the bare word `away` with no team-name
adjacency still produces a home-team location issue, because
`homeTeam.*road|away` parses as `(homeTeam.*road)|(away)`. -/
theorem c8_team_location_adjacency :
    (FactCheck.validate
      ⟨"Lakers", "The Los Angeles Lakers are playing at home tonight.",
        "Lakers win at home.", 0.7, []⟩
      ⟨"Boston Celtics", "Los Angeles Lakers", "2025-01-02T19:30:00-05:00", -7.5⟩
      "thursday" =
      ⟨false, ["Team location error: Los Angeles Lakers is the away team, not home"]⟩) ∧
    (FactCheck.validate
      ⟨"Celtics", "The crowd may drift away early.", "Big game.", 0.7, []⟩
      ⟨"Boston Celtics", "Los Angeles Lakers", "2025-01-02T19:30:00-05:00", -7.5⟩
      "thursday" =
      ⟨false, ["Team location error: Boston Celtics is the home team, not away"]⟩) := by
  exact ⟨by decide, by decide⟩

namespace Elo

/-- `TeamElo` from `types.ts`; the `lastUpdated` wall-clock ISO string
(set from `new Date()` at update time) is not modelled. -/
structure TeamElo where
  team : String
  rating : ℝ
  games : ℕ

/-- The module-level `eloRatings : Map<string, TeamElo>`, as its entry
list in insertion order (JS `Map` keys are unique). -/
abbrev EloState := List (String × TeamElo)

/-- JS `String.prototype.toLowerCase()` on the ASCII range (as in
`FactCheck.lowerStr`). -/
def lowerKey (s : String) : String := ⟨s.data.map Char.toLower⟩

/-- `eloRatings.get(key)`: the entry stored under `key`. -/
def findEntry (key : String) : EloState → Option TeamElo
  | [] => none
  | (k, v) :: rest => if k = key then some v else findEntry key rest

/-- In-place mutation of the record stored under `key`
(`record.rating = …; record.games += 1`); JS map keys are unique, so
rewriting every matching entry coincides with mutating the one entry. -/
def updateEntry (st : EloState) (key : String) (f : TeamElo → TeamElo) : EloState :=
  st.map (fun p => if p.1 = key then (p.1, f p.2) else p)

/-- The `initializeNbaElo` seed table (keys stored lowercased,
`games = 0`). -/
def nbaInitial : EloState := [
  ("celtics", ⟨"Celtics", 1650, 0⟩), ("thunder", ⟨"Thunder", 1620, 0⟩),
  ("nuggets", ⟨"Nuggets", 1600, 0⟩), ("bucks", ⟨"Bucks", 1580, 0⟩),
  ("timberwolves", ⟨"Timberwolves", 1575, 0⟩), ("cavaliers", ⟨"Cavaliers", 1570, 0⟩),
  ("knicks", ⟨"Knicks", 1560, 0⟩), ("suns", ⟨"Suns", 1550, 0⟩),
  ("mavericks", ⟨"Mavericks", 1545, 0⟩), ("clippers", ⟨"Clippers", 1530, 0⟩),
  ("pacers", ⟨"Pacers", 1525, 0⟩), ("heat", ⟨"Heat", 1520, 0⟩),
  ("magic", ⟨"Magic", 1515, 0⟩), ("kings", ⟨"Kings", 1510, 0⟩),
  ("76ers", ⟨"76ers", 1505, 0⟩), ("pelicans", ⟨"Pelicans", 1500, 0⟩),
  ("lakers", ⟨"Lakers", 1495, 0⟩), ("warriors", ⟨"Warriors", 1480, 0⟩),
  ("hawks", ⟨"Hawks", 1475, 0⟩), ("bulls", ⟨"Bulls", 1470, 0⟩),
  ("rockets", ⟨"Rockets", 1465, 0⟩), ("grizzlies", ⟨"Grizzlies", 1460, 0⟩),
  ("jazz", ⟨"Jazz", 1450, 0⟩), ("raptors", ⟨"Raptors", 1445, 0⟩),
  ("nets", ⟨"Nets", 1440, 0⟩), ("spurs", ⟨"Spurs", 1435, 0⟩),
  ("trail blazers", ⟨"Trail Blazers", 1430, 0⟩), ("hornets", ⟨"Hornets", 1425, 0⟩),
  ("pistons", ⟨"Pistons", 1420, 0⟩), ("wizards", ⟨"Wizards", 1410, 0⟩)]

/-- JS `hay.includes(needle)` for the fuzzy team-name fallback. -/
def strIncludes (hay needle : String) : Bool :=
  FactCheck.charsContain needle.data hay.data

/-- `getTeamElo`: direct lowercase-key match, else the first entry
whose key contains or is contained in the normalized name, else
`BASE_ELO = 1500`. -/
def getTeamElo (st : EloState) (teamName : String) : ℝ :=
  match findEntry (lowerKey teamName) st with
  | some r => r.rating
  | none =>
    match st.find? (fun p =>
      strIncludes (lowerKey teamName) p.1 || strIncludes p.1 (lowerKey teamName)) with
    | some p => p.2.rating
    | none => 1500

/-- `expectedWinProbability`: `1 / (1 + 10^((Rb − Ra) / 400))`. -/
noncomputable def expectedWinProbability (ratingA ratingB : ℝ) : ℝ :=
  1 / (1 + (10:ℝ) ^ ((ratingB - ratingA) / 400))

/-- `Math.round (x * 1000) / 1000` on reals. -/
noncomputable def roundTo3R (x : ℝ) : ℝ := (⌊x * 1000 + 1/2⌋ : ℤ) / 1000

/-- `Math.round (x * 10) / 10` on reals. -/
noncomputable def roundTo1R (x : ℝ) : ℝ := (⌊x * 10 + 1/2⌋ : ℤ) / 10

/-- `EloResult` from `types.ts`. -/
structure EloResult where
  homeElo : ℝ
  awayElo : ℝ
  predictedHomeWinProb : ℝ
  expectedMargin : ℝ
  recommendation : String

/-- `predictGame` (`HOME_ADVANTAGE = 100`, margin = eloDiff / 25,
thresholds 0.55 / 0.45).  The source lazily seeds the NBA table when
the map is empty; a single call then reads the seeded table. -/
noncomputable def predictGame (st : EloState) (homeTeam awayTeam : String) : EloResult :=
  let st1 := if st.isEmpty then nbaInitial else st
  let homeElo := getTeamElo st1 homeTeam
  let awayElo := getTeamElo st1 awayTeam
  let adjustedHomeElo := homeElo + 100
  let homeWinProb := expectedWinProbability adjustedHomeElo awayElo
  let eloDiff := adjustedHomeElo - awayElo
  let expectedMargin := eloDiff / 25
  let recommendation :=
    if homeWinProb > 0.55 then "HOME"
    else if homeWinProb < 0.45 then "AWAY"
    else "NEUTRAL"
  ⟨homeElo, awayElo, roundTo3R homeWinProb, roundTo1R expectedMargin, recommendation⟩

/-- The rating change of `updateElo`:
`K_FACTOR · movMultiplier · (actual − expected)` with `K_FACTOR = 20`,
home advantage 100 applied to the home rating inside `expected`, and
`movMultiplier = min(2, 1 + log10(|mov| + 1) · 0.5)`. -/
noncomputable def eloChangeCalc (homeRating awayRating : ℝ) (homeWon : Bool)
    (marginOfVictory : ℝ) : ℝ :=
  20 * min 2 (1 + Real.logb 10 (|marginOfVictory| + 1) * 0.5) *
    ((if homeWon then (1:ℝ) else 0) - expectedWinProbability (homeRating + 100) awayRating)

/-- `updateElo`: silently a no-op when either team is unregistered;
otherwise add the change to the home rating, subtract the same change
from the away rating, and bump both game counters. -/
noncomputable def updateElo (st : EloState) (homeTeam awayTeam : String)
    (homeWon : Bool) (marginOfVictory : ℝ) : EloState :=
  match findEntry (lowerKey homeTeam) st, findEntry (lowerKey awayTeam) st with
  | some homeEntry, some awayEntry =>
    let eloChange := eloChangeCalc homeEntry.rating awayEntry.rating homeWon marginOfVictory
    let st1 := updateEntry st (lowerKey homeTeam)
      (fun r => ⟨r.team, r.rating + eloChange, r.games + 1⟩)
    updateEntry st1 (lowerKey awayTeam)
      (fun r => ⟨r.team, r.rating - eloChange, r.games + 1⟩)
  | _, _ => st

end Elo

namespace Elo

theorem findEntry_updateEntry_self (st : EloState) (key : String)
    (f : TeamElo → TeamElo) :
    findEntry key (updateEntry st key f) = (findEntry key st).map f := by
  induction st with
  | nil => rfl
  | cons p rest ih =>
    obtain ⟨k, v⟩ := p
    simp only [updateEntry, List.map_cons] at *
    by_cases hk : k = key
    · subst hk
      rw [if_pos rfl]
      simp [findEntry]
    · rw [if_neg hk]
      simp only [findEntry, if_neg hk]
      exact ih

theorem findEntry_updateEntry_other (st : EloState) (key k : String)
    (f : TeamElo → TeamElo) (h : k ≠ key) :
    findEntry k (updateEntry st key f) = findEntry k st := by
  induction st with
  | nil => rfl
  | cons p rest ih =>
    obtain ⟨k0, v⟩ := p
    simp only [updateEntry, List.map_cons] at *
    by_cases hk : k0 = key
    · subst hk
      rw [if_pos rfl]
      have hne2 : ¬ (k0 = k) := fun hh => h (hh ▸ rfl)
      simp only [findEntry, if_neg hne2]
      exact ih
    · rw [if_neg hk]
      by_cases hk2 : k0 = k
      · simp only [findEntry, if_pos hk2]
      · simp only [findEntry, if_neg hk2]
        exact ih

theorem findEntry_ne_nil (st : EloState) (key : String) (r : TeamElo)
    (h : findEntry key st = some r) : st ≠ [] := by
  intro hnil
  rw [hnil] at h
  exact Option.noConfusion h

/-- The effect of `updateElo` on the three kinds of lookups, for two
distinct registered keys. -/
theorem updateElo_findEntry (st : EloState) (homeTeam awayTeam : String)
    (homeWon : Bool) (mov : ℝ) (hrec arec : TeamElo)
    (hh : findEntry (lowerKey homeTeam) st = some hrec)
    (ha : findEntry (lowerKey awayTeam) st = some arec)
    (hne : lowerKey homeTeam ≠ lowerKey awayTeam) :
    findEntry (lowerKey homeTeam) (updateElo st homeTeam awayTeam homeWon mov) =
      some ⟨hrec.team,
        hrec.rating + eloChangeCalc hrec.rating arec.rating homeWon mov,
        hrec.games + 1⟩ ∧
    findEntry (lowerKey awayTeam) (updateElo st homeTeam awayTeam homeWon mov) =
      some ⟨arec.team,
        arec.rating - eloChangeCalc hrec.rating arec.rating homeWon mov,
        arec.games + 1⟩ ∧
    ∀ k, k ≠ lowerKey homeTeam → k ≠ lowerKey awayTeam →
      findEntry k (updateElo st homeTeam awayTeam homeWon mov) = findEntry k st := by
  unfold updateElo
  rw [hh, ha]
  refine ⟨?_, ?_, ?_⟩
  · rw [findEntry_updateEntry_other _ _ _ _ hne, findEntry_updateEntry_self, hh]
    rfl
  · rw [findEntry_updateEntry_self,
      findEntry_updateEntry_other _ _ _ _ (fun h => hne h.symm), ha]
    rfl
  · intro k hk1 hk2
    rw [findEntry_updateEntry_other _ _ _ _ hk2, findEntry_updateEntry_other _ _ _ _ hk1]

end Elo

namespace Elo

/-- The pairing formula output is strictly larger when the rating gap
moves in the first team's favour. -/
theorem expectedWinProbability_lt (a b a2 b2 : ℝ) (h : b2 - a2 < b - a) :
    expectedWinProbability a b < expectedWinProbability a2 b2 := by
  unfold expectedWinProbability
  have hx : (10:ℝ) ^ ((b2 - a2) / 400) < (10:ℝ) ^ ((b - a) / 400) :=
    (Real.rpow_lt_rpow_left_iff (by norm_num)).2 (by linarith)
  have hp : (0:ℝ) < 1 + (10:ℝ) ^ ((b2 - a2) / 400) := by positivity
  exact one_div_lt_one_div_of_lt hp (by linarith)

/-- The pairing formula output lies strictly below 1. -/
theorem expectedWinProbability_lt_one (a b : ℝ) :
    expectedWinProbability a b < 1 := by
  unfold expectedWinProbability
  have hx : (0:ℝ) < (10:ℝ) ^ ((b - a) / 400) := Real.rpow_pos_of_pos (by norm_num) _
  rw [div_lt_one (by linarith)]
  linarith

/-- The pairing formula output is strictly positive. -/
theorem expectedWinProbability_pos (a b : ℝ) :
    0 < expectedWinProbability a b := by
  unfold expectedWinProbability
  have hx : (0:ℝ) < (10:ℝ) ^ ((b - a) / 400) := Real.rpow_pos_of_pos (by norm_num) _
  positivity

/-- A home win always produces a strictly positive rating change: the
margin-of-victory multiplier is at least 1 and `1 − expected` is
strictly positive. -/
theorem eloChangeCalc_pos (homeRating awayRating mov : ℝ) :
    0 < eloChangeCalc homeRating awayRating true mov := by
  unfold eloChangeCalc
  have hmul : (1:ℝ) ≤ min 2 (1 + Real.logb 10 (|mov| + 1) * 0.5) := by
    have hlog : 0 ≤ Real.logb 10 (|mov| + 1) := by
      apply Real.logb_nonneg (by norm_num)
      have := abs_nonneg mov
      linarith
    apply le_min (by norm_num)
    nlinarith
  have hexp : expectedWinProbability (homeRating + 100) awayRating < 1 :=
    expectedWinProbability_lt_one _ _
  have h1 : (0:ℝ) < 1 - expectedWinProbability (homeRating + 100) awayRating := by
    linarith
  have hmpos : (0:ℝ) < min 2 (1 + Real.logb 10 (|mov| + 1) * 0.5) :=
    lt_of_lt_of_le one_pos hmul
  simp only [if_true]
  exact mul_pos (mul_pos (by norm_num) hmpos) h1

/-- `roundTo3R` is monotone. -/
theorem roundTo3R_mono (x y : ℝ) (h : x ≤ y) : roundTo3R x ≤ roundTo3R y := by
  unfold roundTo3R
  have : (⌊x * 1000 + 1/2⌋ : ℤ) ≤ ⌊y * 1000 + 1/2⌋ :=
    Int.floor_le_floor (by linarith)
  have hcast : ((⌊x * 1000 + 1/2⌋ : ℤ) : ℝ) ≤ ((⌊y * 1000 + 1/2⌋ : ℤ) : ℝ) := by
    exact_mod_cast this
  linarith

/-- `getTeamElo` on a registered (direct-match) name reads the stored
rating. -/
theorem getTeamElo_of_findEntry (st : EloState) (name : String) (r : TeamElo)
    (h : findEntry (lowerKey name) st = some r) :
    getTeamElo st name = r.rating := by
  simp only [getTeamElo, h]

/-- The probability field of `predictGame` on a nonempty table. -/
theorem predictGame_prob (st : EloState) (homeTeam awayTeam : String)
    (hne : st ≠ []) :
    (predictGame st homeTeam awayTeam).predictedHomeWinProb =
      roundTo3R (expectedWinProbability (getTeamElo st homeTeam + 100)
        (getTeamElo st awayTeam)) := by
  have hemp : st.isEmpty = false := by
    cases st
    · exact absurd rfl hne
    · rfl
  simp only [predictGame, hemp, Bool.false_eq_true, if_false]

/-- `updateEntry` keeps the table nonempty. -/
theorem updateEntry_ne_nil (st : EloState) (key : String) (f : TeamElo → TeamElo)
    (h : st ≠ []) : updateEntry st key f ≠ [] := by
  cases st
  · exact absurd rfl h
  · simp [updateEntry]

end Elo

/-- C10: for two distinct registered teams, `updateElo` adds the
`eloChange` amount to the home team's rating and subtracts exactly the
same amount from the away team's rating (so the sum of the two ratings
is unchanged), increments each of the two game counters by exactly one,
and leaves every other entry of the rating table unchanged. -/
theorem c10_update_zero_sum_local (st : Elo.EloState) (homeTeam awayTeam : String)
    (homeWon : Bool) (mov : ℝ) (hrec arec : Elo.TeamElo)
    (hh : Elo.findEntry (Elo.lowerKey homeTeam) st = some hrec)
    (ha : Elo.findEntry (Elo.lowerKey awayTeam) st = some arec)
    (hne : Elo.lowerKey homeTeam ≠ Elo.lowerKey awayTeam) :
    Elo.findEntry (Elo.lowerKey homeTeam)
        (Elo.updateElo st homeTeam awayTeam homeWon mov) =
      some ⟨hrec.team,
        hrec.rating + Elo.eloChangeCalc hrec.rating arec.rating homeWon mov,
        hrec.games + 1⟩ ∧
    Elo.findEntry (Elo.lowerKey awayTeam)
        (Elo.updateElo st homeTeam awayTeam homeWon mov) =
      some ⟨arec.team,
        arec.rating - Elo.eloChangeCalc hrec.rating arec.rating homeWon mov,
        arec.games + 1⟩ ∧
    (hrec.rating + Elo.eloChangeCalc hrec.rating arec.rating homeWon mov) +
        (arec.rating - Elo.eloChangeCalc hrec.rating arec.rating homeWon mov) =
      hrec.rating + arec.rating ∧
    (∀ k, k ≠ Elo.lowerKey homeTeam → k ≠ Elo.lowerKey awayTeam →
      Elo.findEntry k (Elo.updateElo st homeTeam awayTeam homeWon mov) =
        Elo.findEntry k st) := by
  obtain ⟨h1, h2, h3⟩ :=
    Elo.updateElo_findEntry st homeTeam awayTeam homeWon mov hrec arec hh ha hne
  exact ⟨h1, h2, by ring, h3⟩

/-- Witness for C10 on a concrete two-team table. -/
theorem c10_update_zero_sum_local_witness :
    (Elo.findEntry (Elo.lowerKey "A")
        [("a", ⟨"A", 1500, 0⟩), ("b", ⟨"B", 1400, 2⟩)] = some ⟨"A", 1500, 0⟩ ∧
      Elo.findEntry (Elo.lowerKey "B")
        [("a", ⟨"A", 1500, 0⟩), ("b", ⟨"B", 1400, 2⟩)] = some ⟨"B", 1400, 2⟩ ∧
      Elo.lowerKey "A" ≠ Elo.lowerKey "B") ∧
    Elo.findEntry (Elo.lowerKey "A")
        (Elo.updateElo [("a", ⟨"A", 1500, 0⟩), ("b", ⟨"B", 1400, 2⟩)] "A" "B" true 3) =
      some ⟨"A", 1500 + Elo.eloChangeCalc 1500 1400 true 3, 0 + 1⟩ :=
  ⟨⟨rfl, rfl, by decide⟩,
   (c10_update_zero_sum_local [("a", ⟨"A", 1500, 0⟩), ("b", ⟨"B", 1400, 2⟩)]
     "A" "B" true 3 ⟨"A", 1500, 0⟩ ⟨"B", 1400, 2⟩ rfl rfl (by decide)).1⟩

/-- C9 (corrected): after `updateElo(A, B, true, margin)` on two
distinct registered teams, the unrounded home-win probability that
`predictGame(A, B)` computes is strictly higher than before the update;
the `predictedHomeWinProb` field, which is that probability rounded to
the nearest thousandth, is therefore never lower — but it need not be
strictly higher, since both probabilities can round to the same
thousandth. -/
theorem c9_update_raises_prediction (st : Elo.EloState) (homeTeam awayTeam : String)
    (mov : ℝ) (hrec arec : Elo.TeamElo)
    (hh : Elo.findEntry (Elo.lowerKey homeTeam) st = some hrec)
    (ha : Elo.findEntry (Elo.lowerKey awayTeam) st = some arec)
    (hne : Elo.lowerKey homeTeam ≠ Elo.lowerKey awayTeam) :
    Elo.expectedWinProbability
        (Elo.getTeamElo (Elo.updateElo st homeTeam awayTeam true mov) homeTeam + 100)
        (Elo.getTeamElo (Elo.updateElo st homeTeam awayTeam true mov) awayTeam) >
      Elo.expectedWinProbability (Elo.getTeamElo st homeTeam + 100)
        (Elo.getTeamElo st awayTeam) ∧
    (Elo.predictGame (Elo.updateElo st homeTeam awayTeam true mov)
        homeTeam awayTeam).predictedHomeWinProb ≥
      (Elo.predictGame st homeTeam awayTeam).predictedHomeWinProb := by
  obtain ⟨h1, h2, _⟩ :=
    Elo.updateElo_findEntry st homeTeam awayTeam true mov hrec arec hh ha hne
  have hcpos : 0 < Elo.eloChangeCalc hrec.rating arec.rating true mov :=
    Elo.eloChangeCalc_pos _ _ _
  have ghome : Elo.getTeamElo st homeTeam = hrec.rating :=
    Elo.getTeamElo_of_findEntry _ _ _ hh
  have gaway : Elo.getTeamElo st awayTeam = arec.rating :=
    Elo.getTeamElo_of_findEntry _ _ _ ha
  have ghome2 : Elo.getTeamElo (Elo.updateElo st homeTeam awayTeam true mov) homeTeam =
      hrec.rating + Elo.eloChangeCalc hrec.rating arec.rating true mov :=
    Elo.getTeamElo_of_findEntry _ _ _ h1
  have gaway2 : Elo.getTeamElo (Elo.updateElo st homeTeam awayTeam true mov) awayTeam =
      arec.rating - Elo.eloChangeCalc hrec.rating arec.rating true mov :=
    Elo.getTeamElo_of_findEntry _ _ _ h2
  have hlt : Elo.expectedWinProbability
      (Elo.getTeamElo (Elo.updateElo st homeTeam awayTeam true mov) homeTeam + 100)
      (Elo.getTeamElo (Elo.updateElo st homeTeam awayTeam true mov) awayTeam) >
      Elo.expectedWinProbability (Elo.getTeamElo st homeTeam + 100)
        (Elo.getTeamElo st awayTeam) := by
    rw [ghome, gaway, ghome2, gaway2]
    apply Elo.expectedWinProbability_lt
    linarith
  refine ⟨hlt, ?_⟩
  have hst : st ≠ [] := Elo.findEntry_ne_nil st _ _ hh
  have hst2 : Elo.updateElo st homeTeam awayTeam true mov ≠ [] :=
    Elo.findEntry_ne_nil _ _ _ h1
  rw [Elo.predictGame_prob _ _ _ hst2, Elo.predictGame_prob _ _ _ hst]
  exact Elo.roundTo3R_mono _ _ (le_of_lt hlt)

/-- Witness for C9 (amended) on a concrete two-team table. -/
theorem c9_update_raises_prediction_witness :
    (Elo.findEntry (Elo.lowerKey "A")
        [("a", ⟨"A", 1500, 0⟩), ("b", ⟨"B", 1400, 2⟩)] = some ⟨"A", 1500, 0⟩ ∧
      Elo.findEntry (Elo.lowerKey "B")
        [("a", ⟨"A", 1500, 0⟩), ("b", ⟨"B", 1400, 2⟩)] = some ⟨"B", 1400, 2⟩ ∧
      Elo.lowerKey "A" ≠ Elo.lowerKey "B") ∧
    (Elo.predictGame
        (Elo.updateElo [("a", ⟨"A", 1500, 0⟩), ("b", ⟨"B", 1400, 2⟩)] "A" "B" true 3)
        "A" "B").predictedHomeWinProb ≥
      (Elo.predictGame [("a", ⟨"A", 1500, 0⟩), ("b", ⟨"B", 1400, 2⟩)]
        "A" "B").predictedHomeWinProb :=
  ⟨⟨rfl, rfl, by decide⟩,
   (c9_update_raises_prediction [("a", ⟨"A", 1500, 0⟩), ("b", ⟨"B", 1400, 2⟩)]
     "A" "B" 3 ⟨"A", 1500, 0⟩ ⟨"B", 1400, 2⟩ rfl rfl (by decide)).2⟩

/-- Counterexample to C9 as stated: on a registered pair with a large
rating gap (home 2600, away 1500), the home-win probabilities before
and after `updateElo(home, away, true, 0)` both round to 0.999, so the
`predictedHomeWinProb` returned by `predictGame` is not strictly
higher after the update. -/
theorem c9_rounding_not_strictly_higher :
    ¬ ((Elo.predictGame
        (Elo.updateElo [("a", ⟨"a", 2600, 0⟩), ("b", ⟨"b", 1500, 0⟩)] "a" "b" true 0)
        "a" "b").predictedHomeWinProb >
      (Elo.predictGame [("a", ⟨"a", 2600, 0⟩), ("b", ⟨"b", 1500, 0⟩)]
        "a" "b").predictedHomeWinProb) := by
  set st0 : Elo.EloState := [("a", ⟨"a", 2600, 0⟩), ("b", ⟨"b", 1500, 0⟩)] with hst0def
  have hha : Elo.findEntry (Elo.lowerKey "a") st0 = some ⟨"a", 2600, 0⟩ := rfl
  have hhb : Elo.findEntry (Elo.lowerKey "b") st0 = some ⟨"b", 1500, 0⟩ := rfl
  have hne : Elo.lowerKey "a" ≠ Elo.lowerKey "b" := by decide
  obtain ⟨h1, h2, _⟩ := Elo.updateElo_findEntry st0 "a" "b" true 0
    ⟨"a", 2600, 0⟩ ⟨"b", 1500, 0⟩ hha hhb hne
  set c := Elo.eloChangeCalc 2600 1500 true 0 with hcdef
  have hP1 : Elo.expectedWinProbability (2600 + 100) 1500 = 1000/1001 := by
    unfold Elo.expectedWinProbability
    rw [show ((1500:ℝ) - (2600 + 100))/400 = ((-3:ℤ):ℝ) by norm_num,
      Real.rpow_intCast]
    norm_num
  have hcval : c = 20/1001 := by
    rw [hcdef]
    unfold Elo.eloChangeCalc
    rw [hP1, show |(0:ℝ)| + 1 = 1 by simp, Real.logb_one,
      show (1:ℝ) + 0 * 0.5 = 1 by norm_num,
      min_eq_right (by norm_num : (1:ℝ) ≤ 2)]
    norm_num
  have ga : Elo.getTeamElo st0 "a" = 2600 :=
    Elo.getTeamElo_of_findEntry st0 "a" ⟨"a", 2600, 0⟩ hha
  have gb : Elo.getTeamElo st0 "b" = 1500 :=
    Elo.getTeamElo_of_findEntry st0 "b" ⟨"b", 1500, 0⟩ hhb
  have ga2 : Elo.getTeamElo (Elo.updateElo st0 "a" "b" true 0) "a" = 2600 + c :=
    Elo.getTeamElo_of_findEntry _ "a" _ h1
  have gb2 : Elo.getTeamElo (Elo.updateElo st0 "a" "b" true 0) "b" = 1500 - c :=
    Elo.getTeamElo_of_findEntry _ "b" _ h2
  have hst0ne : st0 ≠ [] := by simp [hst0def]
  have hst2ne : Elo.updateElo st0 "a" "b" true 0 ≠ [] :=
    Elo.findEntry_ne_nil _ _ _ h1
  rw [Elo.predictGame_prob _ _ _ hst2ne, Elo.predictGame_prob _ _ _ hst0ne,
    ga, gb, ga2, gb2]
  -- before-side value
  have hr1 : Elo.roundTo3R (1000/1001) = 999/1000 := by
    unfold Elo.roundTo3R
    rw [show ⌊((1000/1001:ℝ)) * 1000 + 1/2⌋ = 999 by
      rw [Int.floor_eq_iff]
      constructor <;> norm_num]
    norm_num
  -- after-side value
  have h10m3 : (10:ℝ) ^ (-3:ℝ) = 1/1000 := by
    rw [show ((-3:ℝ)) = ((-3:ℤ):ℝ) by norm_num, Real.rpow_intCast]
    norm_num
  have hexpval : ((1500 - c) - (2600 + c + 100))/400 = (-3:ℝ) - 1/10010 := by
    rw [hcval]
    norm_num
  have hxlt : (10:ℝ) ^ ((1:ℝ)/10010) < 1.999 := by
    have hxpow : ((10:ℝ) ^ ((1:ℝ)/10010)) ^ (10010:ℕ) = 10 := by
      rw [← Real.rpow_natCast ((10:ℝ) ^ ((1:ℝ)/10010)) 10010,
        ← Real.rpow_mul (by norm_num : (0:ℝ) ≤ 10)]
      norm_num
    by_contra hge
    push_neg at hge
    have h5 : (1.999:ℝ) ^ (10010:ℕ) ≤ ((10:ℝ) ^ ((1:ℝ)/10010)) ^ (10010:ℕ) :=
      pow_le_pow_left (by norm_num) hge _
    have h4 : (1.999:ℝ) ^ (4:ℕ) ≤ (1.999:ℝ) ^ (10010:ℕ) :=
      pow_le_pow_right (by norm_num) (by norm_num)
    rw [hxpow] at h5
    have hcontra : (1.999:ℝ) ^ (4:ℕ) ≤ 10 := le_trans h4 h5
    norm_num at hcontra
  have hupper : (10:ℝ) ^ ((-3:ℝ) - 1/10010) < 1/1000 := by
    rw [← h10m3]
    exact (Real.rpow_lt_rpow_left_iff (by norm_num)).2 (by norm_num)
  have hlower : (1:ℝ)/1999 < (10:ℝ) ^ ((-3:ℝ) - 1/10010) := by
    have hsplit : (10:ℝ) ^ ((-3:ℝ) - 1/10010) =
        (10:ℝ) ^ (-3:ℝ) * ((10:ℝ) ^ ((1:ℝ)/10010))⁻¹ := by
      rw [← Real.rpow_neg (by norm_num : (0:ℝ) ≤ 10) ((1:ℝ)/10010),
        ← Real.rpow_add (by norm_num : (0:ℝ) < 10)]
      norm_num
    rw [hsplit, h10m3]
    have hx0 : 0 < (10:ℝ) ^ ((1:ℝ)/10010) := Real.rpow_pos_of_pos (by norm_num) _
    have hinv : (1.999:ℝ)⁻¹ < ((10:ℝ) ^ ((1:ℝ)/10010))⁻¹ :=
      inv_lt_inv_of_lt hx0 hxlt
    calc (1:ℝ)/1999 = (1/1000) * (1.999:ℝ)⁻¹ := by norm_num
    _ < (1/1000) * ((10:ℝ) ^ ((1:ℝ)/10010))⁻¹ := by
        exact mul_lt_mul_of_pos_left hinv (by norm_num)
  have hP2 : Elo.expectedWinProbability (2600 + c + 100) (1500 - c) =
      1 / (1 + (10:ℝ) ^ ((-3:ℝ) - 1/10010)) := by
    unfold Elo.expectedWinProbability
    rw [hexpval]
  have hu0 : 0 < (10:ℝ) ^ ((-3:ℝ) - 1/10010) := Real.rpow_pos_of_pos (by norm_num) _
  have hP2lo : (1000/1001 : ℝ) < 1 / (1 + (10:ℝ) ^ ((-3:ℝ) - 1/10010)) := by
    have h := one_div_lt_one_div_of_lt
      (by positivity : (0:ℝ) < 1 + (10:ℝ) ^ ((-3:ℝ) - 1/10010))
      (by linarith : 1 + (10:ℝ) ^ ((-3:ℝ) - 1/10010) < 1001/1000)
    calc (1000/1001 : ℝ) = 1 / (1001/1000) := by norm_num
    _ < _ := h
  have hP2hi : 1 / (1 + (10:ℝ) ^ ((-3:ℝ) - 1/10010)) < 1999/2000 := by
    have h := one_div_lt_one_div_of_lt
      (by norm_num : (0:ℝ) < 2000/1999)
      (by linarith : (2000:ℝ)/1999 < 1 + (10:ℝ) ^ ((-3:ℝ) - 1/10010))
    calc 1 / (1 + (10:ℝ) ^ ((-3:ℝ) - 1/10010)) < 1 / ((2000:ℝ)/1999) := h
    _ = 1999/2000 := by norm_num
  have hfloor2 : ⌊(1 / (1 + (10:ℝ) ^ ((-3:ℝ) - 1/10010))) * 1000 + 1/2⌋ = 999 := by
    rw [Int.floor_eq_iff]
    constructor
    · push_cast
      nlinarith [hP2lo]
    · push_cast
      nlinarith [hP2hi]
  have hr2 : Elo.roundTo3R (1 / (1 + (10:ℝ) ^ ((-3:ℝ) - 1/10010))) = 999/1000 := by
    unfold Elo.roundTo3R
    rw [hfloor2]
    norm_num
  rw [hP2, hr2, hP1, hr1]
  exact lt_irrefl _
